import Mathlib

/-!
Verification of the LoopMethods playback controller (`loop_methods/__init__.py`).

The shallow embedding models the Blender scene fields the handler reads and
writes (`frame_current`, `frame_start`, `frame_end`, and the
`loop_methods_settings.playback_mode` enum value), the host play-state flag
(`bpy.context.screen.is_animation_playing`), and the transport operators the
handler invokes (`bpy.ops.screen.animation_cancel`,
`bpy.ops.screen.animation_play`, and direct assignment to
`scene.frame_current`).  The handler is translated line by line from
`loop_methods_playback_handler`; the mode catalog from `get_playback_modes`.
-/

/-- A transport command issued to the host, in issue order:
`cancel b` is `bpy.ops.screen.animation_cancel(restore_frame=b)`,
`play b` is `bpy.ops.screen.animation_play(reverse=b)`, and
`setFrame n` records the direct write `scene.frame_current = n`. -/
inductive Cmd where
  | cancel (restore_frame : Bool)
  | play (reverse : Bool)
  | setFrame (n : Int)
  deriving DecidableEq, Repr

/-- The scene fields read or written by the handler.  `playback_mode` is the
enum identifier string stored in `scene.loop_methods_settings`. -/
structure Scene where
  frame_current : Int
  frame_start : Int
  frame_end : Int
  playback_mode : String
  deriving DecidableEq, Repr

/-- `loop_methods_playback_handler(scene)` translated from the source.  The
host play-state flag `bpy.context.screen.is_animation_playing` is passed
explicitly.  The result is the list of transport commands issued, in order,
together with the scene after the handler's own writes (only the
`PBLM_method_start` branch writes `scene.frame_current`). -/
def loop_methods_playback_handler (is_animation_playing : Bool) (scene : Scene) :
    List Cmd × Scene :=
  if is_animation_playing = false then
    ([], scene)
  else
    let mode := scene.playback_mode
    if mode = "PBLM_method_stop" ∧ scene.frame_current = scene.frame_end then
      ([Cmd.cancel false], scene)
    else if mode = "PBLM_method_restore" ∧ scene.frame_current = scene.frame_end then
      ([Cmd.cancel true], scene)
    else if mode = "PBLM_method_start" ∧ scene.frame_current = scene.frame_end then
      ([Cmd.cancel false, Cmd.setFrame scene.frame_start],
        { scene with frame_current := scene.frame_start })
    else if mode = "PBLM_method_ping_pong" ∧
        (scene.frame_current = scene.frame_end ∨ scene.frame_current = scene.frame_start) then
      ([Cmd.cancel false, Cmd.play (decide (scene.frame_current = scene.frame_end))], scene)
    else
      ([], scene)

/-- Host transport semantics assumed by the spec: `animation_cancel` stops
playback, `animation_play` starts it, a frame write leaves the play state
unchanged (commands are assumed to succeed). -/
def applyCmd (is_animation_playing : Bool) : Cmd → Bool
  | Cmd.cancel _ => false
  | Cmd.play _ => true
  | Cmd.setFrame _ => is_animation_playing

/-- Fold the host transport semantics over a command list. -/
def applyCmds (is_animation_playing : Bool) (cs : List Cmd) : Bool :=
  cs.foldl applyCmd is_animation_playing

/-- Run `n` consecutive frame-change notifications with the frame value held
fixed (the scene only changes through the handler's own writes), threading the
host play state through the issued commands.  Returns the concatenated command
trace. -/
def runTicks : Nat → Bool → Scene → List Cmd
  | 0, _, _ => []
  | Nat.succ n, is_animation_playing, scene =>
    let r := loop_methods_playback_handler is_animation_playing scene
    r.1 ++ runTicks n (applyCmds is_animation_playing r.1) r.2

/-- Number of `cancel` commands in a trace. -/
def cancelCount (cs : List Cmd) : Nat :=
  (cs.filter fun c => match c with | Cmd.cancel _ => true | _ => false).length

/-- One catalog entry returned by `get_playback_modes`: identifier, name,
description, icon id (`none` stands for the empty-string placeholder used when
the icon is unavailable), and sort index. -/
structure PlaybackModeEntry where
  id : String
  displayName : String
  description : String
  iconRef : Option Nat
  sortIndex : Nat
  deriving DecidableEq, Repr

/-- `get_playback_modes` translated from the source.  `icons` models the
loaded preview collection: it maps an icon key to its `icon_id` when the key
is present (`icons.get(key).icon_id if key in icons else ""`). -/
def get_playback_modes (icons : String → Option Nat) : List PlaybackModeEntry :=
  [ ⟨"PBLM_method_Loop", "Loop (default)",
      "Standard looping playback (default)",
      icons "PBLM_icon_Loop", 0⟩,
    ⟨"PBLM_method_stop", "Play Once & Stop",
      "Play once and stop at the End Frame.",
      icons "PBLM_icon_stop", 1⟩,
    ⟨"PBLM_method_restore", "Play Once & Restore",
      "Play once and jump back to the frame you started from.",
      icons "PBLM_icon_restore", 2⟩,
    ⟨"PBLM_method_start", "Play Once & Jump Start",
      "Play once and jump back to the Start Frame.",
      icons "PBLM_icon_start", 3⟩,
    ⟨"PBLM_method_ping_pong", "Ping-Pong",
      "Loop back and forth between the Start and end Frames",
      icons "PBLM_icon_ping_pong", 4⟩ ]

/-- The identifiers registered in the mode catalog (independent of icons). -/
def registeredModeIds : List String :=
  (get_playback_modes fun _ => none).map PlaybackModeEntry.id

/-- C5: when `bpy.context.screen.is_animation_playing` is false the handler
returns immediately: it issues no transport command and writes no scene field,
for every scene — hence regardless of the active mode and regardless of
`frame_current` equalling `frame_start` or `frame_end`. -/
theorem idle_handler_no_action (scene : Scene) :
    loop_methods_playback_handler false scene = ([], scene) := by
  simp [loop_methods_playback_handler]

/-- C4: in `PBLM_method_start` mode, on a playing tick with
`frame_current = frame_end`, the handler issues `animation_cancel(restore_frame=False)`
and then writes `frame_current := frame_start`, in that order, within the same
invocation. -/
theorem jumpStart_cancel_then_set_frame (scene : Scene)
    (hm : scene.playback_mode = "PBLM_method_start")
    (hf : scene.frame_current = scene.frame_end) :
    loop_methods_playback_handler true scene =
      ([Cmd.cancel false, Cmd.setFrame scene.frame_start],
        { scene with frame_current := scene.frame_start }) := by
  simp [loop_methods_playback_handler, hm, hf]

theorem jumpStart_cancel_then_set_frame_witness :
    loop_methods_playback_handler true ⟨50, 1, 50, "PBLM_method_start"⟩ =
      ([Cmd.cancel false, Cmd.setFrame 1], ⟨1, 1, 50, "PBLM_method_start"⟩) :=
  jumpStart_cancel_then_set_frame ⟨50, 1, 50, "PBLM_method_start"⟩ rfl rfl

/-- C7: in `PBLM_method_restore` mode, on a playing tick with
`frame_current = frame_end`, the handler issues exactly
`animation_cancel(restore_frame=True)` and leaves the scene untouched: the
frame restore is delegated entirely to the host. -/
theorem restore_mode_single_cancel (scene : Scene)
    (hm : scene.playback_mode = "PBLM_method_restore")
    (hf : scene.frame_current = scene.frame_end) :
    loop_methods_playback_handler true scene = ([Cmd.cancel true], scene) := by
  simp [loop_methods_playback_handler, hm, hf]

theorem restore_mode_single_cancel_witness :
    loop_methods_playback_handler true ⟨50, 1, 50, "PBLM_method_restore"⟩ =
      ([Cmd.cancel true], ⟨50, 1, 50, "PBLM_method_restore"⟩) :=
  restore_mode_single_cancel ⟨50, 1, 50, "PBLM_method_restore"⟩ rfl rfl

/-- C6: on a playing tick whose stored mode string is none of the registered
identifiers, the handler falls through every branch: no transport command and
no scene write (standard-loop behavior). -/
theorem unknown_mode_no_action (scene : Scene)
    (hm : scene.playback_mode ∉ registeredModeIds) :
    loop_methods_playback_handler true scene = ([], scene) := by
  have h1 : scene.playback_mode ≠ "PBLM_method_stop" := fun h => hm (by rw [h]; decide)
  have h2 : scene.playback_mode ≠ "PBLM_method_restore" := fun h => hm (by rw [h]; decide)
  have h3 : scene.playback_mode ≠ "PBLM_method_start" := fun h => hm (by rw [h]; decide)
  have h4 : scene.playback_mode ≠ "PBLM_method_ping_pong" := fun h => hm (by rw [h]; decide)
  simp [loop_methods_playback_handler, h1, h2, h3, h4]

theorem unknown_mode_no_action_witness :
    loop_methods_playback_handler true ⟨50, 1, 50, "STALE_MODE_ID"⟩ =
      ([], ⟨50, 1, 50, "STALE_MODE_ID"⟩) :=
  unknown_mode_no_action ⟨50, 1, 50, "STALE_MODE_ID"⟩ (by decide)

/-- C10: on every invocation, in every mode, `frame_start`, `frame_end` and
`playback_mode` are preserved; the scene is either returned unchanged or — only
in `PBLM_method_start` mode, while playing, with `frame_current = frame_end` —
updated by the single write `frame_current := frame_start`; and every frame
write recorded in the command trace happens under exactly those conditions and
writes `frame_start`. -/
theorem handler_writes_only_current_frame (p : Bool) (scene : Scene) :
    ((loop_methods_playback_handler p scene).2.frame_start = scene.frame_start ∧
      (loop_methods_playback_handler p scene).2.frame_end = scene.frame_end ∧
      (loop_methods_playback_handler p scene).2.playback_mode = scene.playback_mode) ∧
    ((loop_methods_playback_handler p scene).2 = scene ∨
      (p = true ∧ scene.playback_mode = "PBLM_method_start" ∧
        scene.frame_current = scene.frame_end ∧
        (loop_methods_playback_handler p scene).2 =
          { scene with frame_current := scene.frame_start })) ∧
    ∀ n, Cmd.setFrame n ∈ (loop_methods_playback_handler p scene).1 →
      p = true ∧ scene.playback_mode = "PBLM_method_start" ∧
      scene.frame_current = scene.frame_end ∧ n = scene.frame_start := by
  simp only [loop_methods_playback_handler]
  split_ifs with hp h1 h2 h3 h4
  · exact ⟨⟨rfl, rfl, rfl⟩, Or.inl rfl, fun n hn => absurd hn (by simp)⟩
  · exact ⟨⟨rfl, rfl, rfl⟩, Or.inl rfl, fun n hn => absurd hn (by simp)⟩
  · exact ⟨⟨rfl, rfl, rfl⟩, Or.inl rfl, fun n hn => absurd hn (by simp)⟩
  · have hpt : p = true := by cases p with | false => exact absurd rfl hp | true => rfl
    refine ⟨⟨rfl, rfl, rfl⟩, Or.inr ⟨hpt, h3.1, h3.2, rfl⟩, fun n hn => ?_⟩
    have hns : n = scene.frame_start := by simpa using hn
    exact ⟨hpt, h3.1, h3.2, hns⟩
  · exact ⟨⟨rfl, rfl, rfl⟩, Or.inl rfl, fun n hn => absurd hn (by simp)⟩
  · exact ⟨⟨rfl, rfl, rfl⟩, Or.inl rfl, fun n hn => absurd hn (by simp)⟩

/-- Once playback is stopped, a run of ticks with the play state false issues
no commands at all (the idle filter returns before any branch). -/
theorem runTicks_idle (n : Nat) (scene : Scene) : runTicks n false scene = [] := by
  induction n with
  | zero => rfl
  | succ n ih =>
    simp [runTicks, loop_methods_playback_handler, applyCmds]
    exact ih

/-- C1 (code divergence at the degenerate ping-pong range): with
`frame_start = frame_end = frame_current = 10` in `PBLM_method_ping_pong`
mode, a playing tick issues `animation_cancel(restore_frame=False)` AND
`animation_play(reverse=True)` — not the single cancel with no play that stop
semantics requires — and since the replay restarts playback, the pair repeats
on every subsequent tick (three ticks issue three cancels): an unbounded
cancel/replay loop. -/
theorem pingPong_degenerate_range_replays :
    (loop_methods_playback_handler true ⟨10, 10, 10, "PBLM_method_ping_pong"⟩).1 =
      [Cmd.cancel false, Cmd.play true] ∧
    cancelCount (runTicks 3 true ⟨10, 10, 10, "PBLM_method_ping_pong"⟩) = 3 := by
  decide

/-- C2 counterexample: in standard-loop mode (`PBLM_method_Loop`, not
ping-pong) a playing tick at `frame_current = frame_end` issues zero cancel
commands, not exactly one. -/
theorem standardLoop_boundary_zero_cancels :
    ("PBLM_method_Loop" : String) ≠ "PBLM_method_ping_pong" ∧
    (⟨50, 1, 50, "PBLM_method_Loop"⟩ : Scene).frame_current =
      (⟨50, 1, 50, "PBLM_method_Loop"⟩ : Scene).frame_end ∧
    cancelCount (runTicks 1 true ⟨50, 1, 50, "PBLM_method_Loop"⟩) = 0 := by
  decide

/-- C2 (amended to the three stopping modes): in `PBLM_method_stop`,
`PBLM_method_restore` or `PBLM_method_start` mode, a run of `n ≥ 1`
notifications starting while playing at `frame_current = frame_end`, with the
frame value held at the boundary and the host honoring the cancel, issues
exactly one cancel command in total: repeated notifications after the crossing
add no duplicate commands. -/
theorem stopModes_exactly_one_cancel_per_crossing (scene : Scene) (n : Nat)
    (hm : scene.playback_mode = "PBLM_method_stop" ∨
      scene.playback_mode = "PBLM_method_restore" ∨
      scene.playback_mode = "PBLM_method_start")
    (hf : scene.frame_current = scene.frame_end) (hn : 1 ≤ n) :
    cancelCount (runTicks n true scene) = 1 := by
  obtain ⟨m, rfl⟩ : ∃ m, n = m + 1 := ⟨n - 1, by omega⟩
  rcases hm with hm | hm | hm <;>
    simp [runTicks, loop_methods_playback_handler, hm, hf, applyCmds, applyCmd,
      runTicks_idle, cancelCount]

theorem stopModes_exactly_one_cancel_per_crossing_witness :
    cancelCount (runTicks 3 true ⟨50, 1, 50, "PBLM_method_stop"⟩) = 1 :=
  stopModes_exactly_one_cancel_per_crossing ⟨50, 1, 50, "PBLM_method_stop"⟩ 3
    (Or.inl rfl) rfl (by decide)

/-- The frame at the k-th boundary touch of a ping-pong run that starts
forward from `frame_start`: the first touch (k = 0) is at `frame_end` and
touches alternate between the two boundaries thereafter. -/
def boundaryTouchFrame (scene : Scene) (k : Nat) : Int :=
  if k % 2 = 0 then scene.frame_end else scene.frame_start

/-- The `reverse` flag of the `animation_play` command the handler issues at
the k-th boundary touch (`false` when no play command is issued there). -/
def reverseFlagAtTouch (scene : Scene) (k : Nat) : Bool :=
  match (loop_methods_playback_handler true
      { scene with frame_current := boundaryTouchFrame scene k }).1 with
  | [_, Cmd.play r] => r
  | _ => false

/-- C3: in ping-pong mode with `frame_start < frame_end`, every playing tick
at a boundary issues `animation_cancel(restore_frame=False)` followed by
`animation_play(reverse = (frame_current = frame_end))` — reverse at the end
frame, forward at the start frame — and over any sequence of boundary touches
the issued direction alternates strictly at each touch. -/
theorem pingPong_boundary_commands_alternate (scene : Scene)
    (hm : scene.playback_mode = "PBLM_method_ping_pong")
    (hlt : scene.frame_start < scene.frame_end)
    (hb : scene.frame_current = scene.frame_end ∨
      scene.frame_current = scene.frame_start) :
    (loop_methods_playback_handler true scene).1 =
      [Cmd.cancel false, Cmd.play (decide (scene.frame_current = scene.frame_end))] ∧
    (∀ k, reverseFlagAtTouch scene k = decide (k % 2 = 0)) ∧
    ∀ k, reverseFlagAtTouch scene k ≠ reverseFlagAtTouch scene (k + 1) := by
  have hne : scene.frame_start ≠ scene.frame_end := ne_of_lt hlt
  have hflag : ∀ k, reverseFlagAtTouch scene k = decide (k % 2 = 0) := by
    intro k
    by_cases hk : k % 2 = 0 <;>
      simp [reverseFlagAtTouch, boundaryTouchFrame, loop_methods_playback_handler,
        hm, hk, hne]
  refine ⟨?_, hflag, fun k => ?_⟩
  · rcases hb with hb | hb <;>
      simp [loop_methods_playback_handler, hm, hb, hne]
  · rw [hflag k, hflag (k + 1)]
    simp only [ne_eq, decide_eq_decide]
    omega

theorem pingPong_boundary_commands_alternate_witness :
    (loop_methods_playback_handler true ⟨50, 1, 50, "PBLM_method_ping_pong"⟩).1 =
      [Cmd.cancel false, Cmd.play true] ∧
    reverseFlagAtTouch ⟨50, 1, 50, "PBLM_method_ping_pong"⟩ 0 ≠
      reverseFlagAtTouch ⟨50, 1, 50, "PBLM_method_ping_pong"⟩ 1 := by
  have h := pingPong_boundary_commands_alternate ⟨50, 1, 50, "PBLM_method_ping_pong"⟩
    rfl (by decide) (Or.inl rfl)
  exact ⟨by simpa using h.1, h.2.2 0⟩

/-- Result code reported by the mode-selection surface. -/
inductive SetModeResult where
  | ok
  | invalidModeSelection
  deriving DecidableEq, Repr

/-- Per-session selection state: the currently selected mode identifier. -/
structure SessionState where
  activeModeId : String
  deriving DecidableEq, Repr

/-- Modelled from the spec: the repository stores the selection as a Blender
`EnumProperty` whose items come from `get_playback_modes`, so the
accept/reject behavior of `setActiveMode(session, id)` lives in the host
property system rather than under `src/`.  Per the spec it "validates against
Mode Registry; rejects unknown ids with `InvalidMode`, leaving prior selection
intact", surfacing `InvalidModeSelection` as a result code.  Validation is
exact membership among the registered identifiers. -/
def setActiveMode (session : SessionState) (id : String) :
    SessionState × SetModeResult :=
  if id ∈ registeredModeIds then
    ({ session with activeModeId := id }, SetModeResult.ok)
  else
    (session, SetModeResult.invalidModeSelection)

/-- C8: for every session state and every identifier absent from the mode
registry, `setActiveMode` leaves `activeModeId` unchanged (the whole session
state is returned as it was) and reports `InvalidModeSelection`. -/
theorem setActiveMode_rejects_unknown_id (session : SessionState) (id : String)
    (h : id ∉ registeredModeIds) :
    setActiveMode session id = (session, SetModeResult.invalidModeSelection) := by
  simp [setActiveMode, h]

theorem setActiveMode_rejects_unknown_id_witness :
    setActiveMode ⟨"PBLM_method_Loop"⟩ "PBLM_method_bogus" =
      (⟨"PBLM_method_Loop"⟩, SetModeResult.invalidModeSelection) :=
  setActiveMode_rejects_unknown_id ⟨"PBLM_method_Loop"⟩ "PBLM_method_bogus"
    (by decide)

/-- C9: for every icon availability, `get_playback_modes` returns a non-empty
list of exactly five entries, strictly ascending in `sortIndex`, whose first
entry is the standard-loop mode with `sortIndex = 0`; and with an empty
preview collection every entry's icon reference is the empty placeholder — the
listing still succeeds rather than failing. -/
theorem get_playback_modes_ordered_loop_first (icons : String → Option Nat) :
    get_playback_modes icons ≠ [] ∧
    List.Pairwise (fun a b => a.sortIndex < b.sortIndex) (get_playback_modes icons) ∧
    ((get_playback_modes icons).head?.map fun e => (e.id, e.sortIndex)) =
      some ("PBLM_method_Loop", 0) ∧
    (get_playback_modes icons).length = 5 ∧
    ∀ e ∈ get_playback_modes fun _ => none, e.iconRef = none := by
  refine ⟨by simp [get_playback_modes], ?_, by simp [get_playback_modes],
    by simp [get_playback_modes], ?_⟩
  · simp [get_playback_modes, List.pairwise_cons]
  · intro e he
    simp [get_playback_modes] at he
    rcases he with rfl | rfl | rfl | rfl | rfl <;> rfl
